import Mathlib

/-!
Verification of the package-installation orchestrator of `dotfiles-go`
(`internal/installer`): the sequential executor (`installer.go`), the
parallel executor and progress reporter (`parallel.go`), and the three
backend providers (pacman, yay, winget).

The development has two layers.

Layer B (orchestrator layer): providers are modelled generically as a
record of the `PackageManager` interface from `internal/installer/types.go`
whose probes and install outcome are pure functions of the package name.
The batch executors are translated from `Installer.InstallPackages`
(`installer.go`) and `ParallelInstaller.InstallPackagesParallel`
(`parallel.go`).  The Go context is modelled as a function `Nat → Bool`
saying whether `ctx.Done()` is ready at the i-th cancellation check; the
nondeterministic completion order of the worker pool is an explicit list
parameter, constrained to be a permutation of the input in the theorems.
Wall-clock durations and logging are not modelled (they decide no claim);
progress events emitted by the batch loops are modelled separately at the
`ProgressManager` level.

Layer A (provider layer): a `World` records the externally observable
system state (PATH lookups, OS, package databases, command outcomes) and
the three concrete managers are translated instruction by instruction from
`pacman.go`, `yay.go` and `winget.go`, producing a trace of provider-entry
and install-command events so that "the mutating path was (not) invoked"
is expressible.
-/

/-- Error values are modelled by their message strings; `none` is Go's
`nil` error. -/
abbrev GoErr := String

/-- The message of `ctx.Err()` for a cancelled context. -/
def cancelMsg : GoErr := "context canceled"

/-- The error built by `Installer.InstallPackage` when `SelectManager`
returns nil (`installer.go` line 22). -/
def noManagerMsg : GoErr := "没有找到可用的包管理器"

/-- `InstallOptions` from `internal/installer/types.go`. -/
structure InstallOptions where
  force : Bool
  dryRun : Bool
  verbose : Bool
  quiet : Bool
  parallel : Bool
  maxWorkers : Int
deriving DecidableEq, Repr

/-- `InstallResult` from `internal/installer/types.go`.  The `Duration`
field (wall-clock seconds) is not modelled: no claim depends on it and
real time has no shallow embedding. -/
structure InstallResult where
  packageName : String
  manager : String
  success : Bool
  skipped : Bool
  error : Option GoErr
deriving DecidableEq, Repr

/-- Layer B model of one registered `PackageManager`
(`internal/installer/types.go`): the interface operations as pure
functions.  `available` is the result of `IsAvailable()` (constant during
one batch), `isInstalled` the result of the `IsInstalled` probe, and
`installErr` the outcome of the mutating `Install(ctx, pkg)` call
(`none` = success). -/
structure Manager where
  mname : String
  available : Bool
  isInstalled : String → Bool
  installErr : String → Option GoErr
  priority : Int

/-- The `Installer` struct from `internal/installer/types.go`: the list of
registered managers (the logger is not modelled). -/
structure Installer where
  managers : List Manager

/-- `Installer.GetAvailableManagers` (`types.go`): filter the registered
managers by `IsAvailable()`, preserving registration order. -/
def Installer.availableManagers (inst : Installer) : List Manager :=
  inst.managers.filter (·.available)

/-- `Installer.SelectManager` (`types.go`): linear min-scan over the
available managers, `best := available[0]`, replaced only on strictly
smaller priority, so the first-registered manager wins ties. -/
def Installer.selectManager (inst : Installer) : Option Manager :=
  match inst.availableManagers with
  | [] => none
  | best :: rest =>
    some (rest.foldl (fun b m => if m.priority < b.priority then m else b) best)

/-- `Installer.InstallPackage` (`installer.go` lines 11-62), which returns
`(*InstallResult, error)`.  The four steps: select a manager (error result
when none), skip when not forced and already installed, dry-run success,
otherwise call the manager's `Install` and map its error into the
result. -/
def Installer.installPackage (inst : Installer) (pkg : String)
    (opts : InstallOptions) : InstallResult × Option GoErr :=
  match inst.selectManager with
  | none =>
    ({ packageName := pkg, manager := "", success := false, skipped := false,
       error := some noManagerMsg }, some noManagerMsg)
  | some m =>
    if !opts.force && m.isInstalled pkg then
      ({ packageName := pkg, manager := m.mname, success := true,
         skipped := true, error := none }, none)
    else if opts.dryRun then
      ({ packageName := pkg, manager := m.mname, success := true,
         skipped := false, error := none }, none)
    else
      match m.installErr pkg with
      | some e =>
        ({ packageName := pkg, manager := m.mname, success := false,
           skipped := false, error := some e }, some e)
      | none =>
        ({ packageName := pkg, manager := m.mname, success := true,
           skipped := false, error := none }, none)

/-- The loop of `Installer.InstallPackages` (`installer.go` lines 79-129),
written as structural recursion instead of a loop appending to `results`.
`ctx i` is whether the `select` on `ctx.Done()` fires at the i-th
iteration; when it does, the results gathered so far are returned with
`ctx.Err()`.  On a package error with `force` false the loop breaks and
the function returns the gathered results (including the failing one)
with a nil batch error. -/
def seqLoop (inst : Installer) (ctx : Nat → Bool) (opts : InstallOptions) :
    Nat → List String → List InstallResult × Option GoErr
  | _, [] => ([], none)
  | i, pkg :: rest =>
    if ctx i then ([], some cancelMsg)
    else
      let r := inst.installPackage pkg opts
      if r.2.isSome && !opts.force then ([r.1], none)
      else
        let t := seqLoop inst ctx opts (i + 1) rest
        (r.1 :: t.1, t.2)

/-- `Installer.InstallPackages` (`installer.go` lines 65-152): the batch
loop starting at iteration 0.  Progress-manager calls and the final
success/failure log are pure observation and are modelled separately. -/
def Installer.installPackages (inst : Installer) (ctx : Nat → Bool)
    (pkgs : List String) (opts : InstallOptions) :
    List InstallResult × Option GoErr :=
  seqLoop inst ctx opts 0 pkgs

/-- `ParallelInstaller.supportsParallel` (`parallel.go` lines 204-231):
no available manager or no selected manager means unsupported; otherwise
a static per-name classification: pacman and yay serialize internally,
winget is parallel-safe, unknown names default to unsupported. -/
def Installer.supportsParallel (inst : Installer) : Bool :=
  if inst.availableManagers.isEmpty then false
  else
    match inst.selectManager with
    | none => false
    | some m =>
      match m.mname with
      | "pacman" => false
      | "winget" => true
      | "yay" => false
      | _ => false

/-- Which branch of `InstallPackagesParallel` executed the packages: the
internal fallback to `Installer.InstallPackages` (`parallel.go` lines
43-46) or the worker pool. -/
inductive ExecPath where
  | seqFallback
  | pool
deriving DecidableEq, Repr

/-- What a call to `InstallPackagesParallel` returns: the copied shared
results slice, the batch-level error, and which path ran. -/
structure ParallelOut where
  results : List InstallResult
  err : Option GoErr
  path : ExecPath
deriving DecidableEq, Repr

/-- The worker pool of `InstallPackagesParallel` linearized in completion
order.  Workers pull packages from one shared channel and append each
result to the shared slice under a mutex; `order` is the nondeterministic
completion order of the dispatched packages (a permutation of the input
in the theorems).  A worker whose `select` sees `ctx.Done()` stops
consuming, so a fired cancellation at step i leaves the remaining
packages unprocessed; a worker's package failure is logged and never
stops its siblings (`parallel.go` lines 113-143). -/
def poolLoop (inst : Installer) (ctx : Nat → Bool) (opts : InstallOptions) :
    Nat → List String → List InstallResult
  | _, [] => []
  | i, pkg :: rest =>
    if ctx i then []
    else (inst.installPackage pkg opts).1 :: poolLoop inst ctx opts (i + 1) rest

/-- `ParallelInstaller.InstallPackagesParallel` (`parallel.go` lines
41-110).  When `supportsParallel` is false it logs a warning and returns
`pi.installer.InstallPackages(ctx, packages, opts)` itself.  Otherwise it
runs the worker pool; the error of `g.Wait()` (only ever a context
cancellation, since workers swallow package failures) is logged and
discarded, so the pool path always returns a nil batch error with the
copied results slice. -/
def installPackagesParallelGo (inst : Installer) (ctx : Nat → Bool)
    (order : List String) (pkgs : List String) (opts : InstallOptions) :
    ParallelOut :=
  if !inst.supportsParallel then
    let s := inst.installPackages ctx pkgs opts
    { results := s.1, err := s.2, path := ExecPath.seqFallback }
  else
    { results := poolLoop inst ctx opts 0 order, err := none,
      path := ExecPath.pool }

/-- `NewParallelInstaller` (`parallel.go` lines 26-38): the worker count
(and semaphore capacity) is `runtime.NumCPU()` when the configured
`maxWorkers` is not positive, and exactly `maxWorkers` otherwise. -/
def newParallelInstallerWorkers (cpu : Int) (maxWorkers : Int) : Int :=
  if maxWorkers ≤ 0 then cpu else maxWorkers

/-- `GetOptimalWorkerCount` (`parallel.go` lines 234-248), with
`runtime.NumCPU()` as the explicit `cpu` argument.  Go computes
`int(float64(cpuCount) * 1.5)` in the last branch; for any machine CPU
count this is exact in binary floating point and truncation of the
nonnegative value equals `3 * cpu / 2` in natural division. -/
def getOptimalWorkerCount (cpu : Nat) (packageCount : Nat) : Nat :=
  if packageCount ≤ 2 then 1
  else if packageCount ≤ cpu then packageCount
  else 3 * cpu / 2

/-- `ParallelCapability` (`parallel.go` lines 251-255). -/
structure ParallelCapability where
  supported : Bool
  recommendedWorkers : Nat
  reason : String
deriving DecidableEq, Repr

/-- `ParallelInstaller.CheckParallelCapability` (`parallel.go` lines
258-287): unsupported when the selected manager does not support parallel
installs, or when at most one package is requested; otherwise supported
with `GetOptimalWorkerCount` as the recommendation.  The numeric parts of
the Go `fmt.Sprintf` reasons are omitted from the reason strings. -/
def checkParallelCapability (cpu : Nat) (inst : Installer)
    (pkgs : List String) : ParallelCapability :=
  if !inst.supportsParallel then
    let managerName := match inst.selectManager with
      | some m => m.mname
      | none => "未知"
    { supported := false, recommendedWorkers := 0,
      reason := "包管理器 " ++ managerName ++ " 不支持并行安装" }
  else if pkgs.length ≤ 1 then
    { supported := false, recommendedWorkers := 0,
      reason := "包数量太少，并行安装无优势" }
  else
    { supported := true,
      recommendedWorkers := getOptimalWorkerCount cpu pkgs.length,
      reason := "支持并行安装" }

/-- The three concrete providers registered by
`Installer.InitializeManagers` (`installer.go` lines 155-185). -/
inductive MgrId where
  | yay
  | pacman
  | winget
deriving DecidableEq, Repr

/-- `Name()` of each provider. -/
def mgrName : MgrId → String
  | .yay => "yay"
  | .pacman => "pacman"
  | .winget => "winget"

/-- `Priority()` of each provider: yay 0 (richer, preferred), pacman 1,
winget 2. -/
def mgrPriority : MgrId → Int
  | .yay => 0
  | .pacman => 1
  | .winget => 2

/-- Outcome of the `winget install` subprocess (`winget.go`): the command
may succeed, fail with an output containing "Successfully installed" or
"already installed" (treated as success by `WingetManager.Install`), or
fail outright. -/
inductive WingetOutcome where
  | ok
  | errSuccessOutput
  | errFail
deriving DecidableEq, Repr

/-- Layer A system state: everything the providers observe or mutate.
`pacmanDB` is the package database probed by `pacman -Q` and `yay -Q`;
`wingetDB` the one probed by `winget list`.  The `...CmdOk` and
`wingetOutcome` fields give the outcome the respective install subprocess
would have for each package; `pacmanLock` is the existence of
`/var/lib/pacman/db.lck` and `sudoNOk` whether `sudo -n` succeeds. -/
structure World where
  goos : String
  pacmanOnPath : Bool
  yayOnPath : Bool
  wingetOnPath : Bool
  isArch : Bool
  pacmanDB : String → Bool
  wingetDB : String → Bool
  pacmanCmdOk : String → Bool
  yayCmdOk : String → Bool
  wingetOutcome : String → WingetOutcome
  pacmanLock : Bool
  sudoNOk : Bool

/-- `PacmanManager.IsAvailable` (`pacman.go`): only a PATH lookup. -/
def pacmanAvailable (w : World) : Bool :=
  w.pacmanOnPath

/-- `YayManager.IsAvailable` (`yay.go`): false off Linux; then the PATH
lookup; and a yay found outside an Arch-like distribution is rejected. -/
def yayAvailable (w : World) : Bool :=
  if w.goos != "linux" then false
  else
    let available := w.yayOnPath
    if available && !w.isArch then false else available

/-- `WingetManager.IsAvailable` (`winget.go`): false off Windows, then the
PATH lookup. -/
def wingetAvailable (w : World) : Bool :=
  if w.goos != "windows" then false
  else w.wingetOnPath

/-- `IsAvailable()` dispatch over the three providers. -/
def mgrAvailable (w : World) : MgrId → Bool
  | .yay => yayAvailable w
  | .pacman => pacmanAvailable w
  | .winget => wingetAvailable w

/-- `IsInstalled` dispatch: `pacman -Q` and `yay -Q` probe the pacman
database, `winget list` probes the winget database. -/
def mgrIsInstalled (w : World) : MgrId → String → Bool
  | .pacman, pkg => w.pacmanDB pkg
  | .yay, pkg => w.pacmanDB pkg
  | .winget, pkg => w.wingetDB pkg

/-- The manager list built by `InitializeManagers`: yay, pacman, winget
are registered and then stably sorted by priority, which leaves this
order. -/
def registeredManagers : List MgrId :=
  [MgrId.yay, MgrId.pacman, MgrId.winget]

/-- `Installer.GetAvailableManagers` over the concrete registration. -/
def availableManagersA (w : World) : List MgrId :=
  registeredManagers.filter (mgrAvailable w)

/-- `Installer.SelectManager` over the concrete registration: linear
min-scan by priority, first-registered wins ties. -/
def selectManagerA (w : World) : Option MgrId :=
  match availableManagersA w with
  | [] => none
  | best :: rest =>
    some (rest.foldl (fun b m => if mgrPriority m < mgrPriority b then m else b) best)

/-- Trace events of one single-package install: the orchestrator entering
a provider's `Install` method, and the provider actually executing its
mutating install subprocess. -/
inductive Ev where
  | enterInstall (m : MgrId) (pkg : String)
  | execInstallCmd (m : MgrId) (pkg : String)
deriving DecidableEq, Repr

/-- What one provider `Install` call produces: the possibly mutated
world, the subprocess executions, and the returned error. -/
structure MOut where
  world : World
  trace : List Ev
  err : Option GoErr

/-- Mark `pkg` installed in the pacman database. -/
def markPacman (w : World) (pkg : String) : World :=
  { w with pacmanDB := fun q => if q == pkg then true else w.pacmanDB q }

/-- Mark `pkg` installed in the winget database. -/
def markWinget (w : World) (pkg : String) : World :=
  { w with wingetDB := fun q => if q == pkg then true else w.wingetDB q }

/-- `PacmanManager.Install` (`pacman.go` lines 86-114): an
already-installed package is skipped with a nil error before any command
runs; otherwise `sudo pacman -S --noconfirm` runs and its failure is
returned, success updating the package database. -/
def pacmanInstallM (w : World) (pkg : String) : MOut :=
  if w.pacmanDB pkg then { world := w, trace := [], err := none }
  else if w.pacmanCmdOk pkg then
    { world := markPacman w pkg, trace := [Ev.execInstallCmd MgrId.pacman pkg],
      err := none }
  else
    { world := w, trace := [Ev.execInstallCmd MgrId.pacman pkg],
      err := some ("安装失败: " ++ pkg) }

/-- `YayManager.Install` (`yay.go` lines 209-280): the pacman lock file
and `sudo -n` are checked first (each failure returns an error before any
install command); an already-installed package is then skipped with a nil
error; otherwise `yay -S --noconfirm --needed` runs.  The output-based
classification of failure messages (sudo, lock, network) is abstracted to
a single message since no claim depends on the text. -/
def yayInstallM (w : World) (pkg : String) : MOut :=
  if w.pacmanLock then
    { world := w, trace := [], err := some "pacman数据库被锁定" }
  else if !w.sudoNOk then
    { world := w, trace := [], err := some "sudo权限验证失败" }
  else if w.pacmanDB pkg then { world := w, trace := [], err := none }
  else if w.yayCmdOk pkg then
    { world := markPacman w pkg, trace := [Ev.execInstallCmd MgrId.yay pkg],
      err := none }
  else
    { world := w, trace := [Ev.execInstallCmd MgrId.yay pkg],
      err := some ("安装失败: " ++ pkg) }

/-- `WingetManager.Install` (`winget.go`): the install command always
runs (no pre-check); a failing command whose output reports
"Successfully installed" or "already installed" is treated as success. -/
def wingetInstallM (w : World) (pkg : String) : MOut :=
  match w.wingetOutcome pkg with
  | WingetOutcome.ok =>
    { world := markWinget w pkg, trace := [Ev.execInstallCmd MgrId.winget pkg],
      err := none }
  | WingetOutcome.errSuccessOutput =>
    { world := markWinget w pkg, trace := [Ev.execInstallCmd MgrId.winget pkg],
      err := none }
  | WingetOutcome.errFail =>
    { world := w, trace := [Ev.execInstallCmd MgrId.winget pkg],
      err := some ("安装失败: " ++ pkg) }

/-- `Install(ctx, pkg)` dispatch over the three providers. -/
def mgrInstall (w : World) : MgrId → String → MOut
  | .pacman, pkg => pacmanInstallM w pkg
  | .yay, pkg => yayInstallM w pkg
  | .winget, pkg => wingetInstallM w pkg

/-- What a Layer A `Installer.InstallPackage` call produces: the final
world, the result, the trace of provider activity, and the returned
error. -/
structure SingleOut where
  world : World
  result : InstallResult
  trace : List Ev
  err : Option GoErr

/-- `Installer.InstallPackage` (`installer.go` lines 11-62) over the
concrete providers, with world threading and the provider-activity trace:
select a manager; skip when not forced and the provider reports the
package installed; dry-run success without entering `Install`; otherwise
enter the provider's `Install` (traced as `enterInstall`). -/
def installPackageA (w : World) (pkg : String) (opts : InstallOptions) :
    SingleOut :=
  match selectManagerA w with
  | none =>
    { world := w,
      result := { packageName := pkg, manager := "", success := false,
                  skipped := false, error := some noManagerMsg },
      trace := [], err := some noManagerMsg }
  | some m =>
    if !opts.force && mgrIsInstalled w m pkg then
      { world := w,
        result := { packageName := pkg, manager := mgrName m, success := true,
                    skipped := true, error := none },
        trace := [], err := none }
    else if opts.dryRun then
      { world := w,
        result := { packageName := pkg, manager := mgrName m, success := true,
                    skipped := false, error := none },
        trace := [], err := none }
    else
      let o := mgrInstall w m pkg
      match o.err with
      | some e =>
        { world := o.world,
          result := { packageName := pkg, manager := mgrName m,
                      success := false, skipped := false, error := some e },
          trace := Ev.enterInstall m pkg :: o.trace, err := some e }
      | none =>
        { world := o.world,
          result := { packageName := pkg, manager := mgrName m,
                      success := true, skipped := false, error := none },
          trace := Ev.enterInstall m pkg :: o.trace, err := none }

/-- `ProgressEventType` (`progress.go`). -/
inductive ProgressEventType where
  | start
  | update
  | success
  | fail
  | skip
deriving DecidableEq, Repr

/-- `ProgressEvent` (`progress.go`); the timestamp is a logical clock
value stamped by `SendEvent`. -/
structure ProgressEvent where
  type : ProgressEventType
  packageName : String
  manager : String
  message : String
  error : Option GoErr
  timestamp : Nat
deriving DecidableEq, Repr

/-- The capacity of the buffered events channel created by
`NewProgressManager` (`progress.go`). -/
def progressQueueCap : Nat := 100

/-- `ProgressManager` (`progress.go`): the buffered channel is modelled
as a bounded queue, the results map as an association list (latest write
wins by replacement), and `started` as in the source.  The progress-bar
rendering is pure output and not modelled. -/
structure ProgressManager where
  packages : List String
  queue : List ProgressEvent
  results : List (String × InstallResult)
  started : Bool
  totalPkgs : Nat
  completedPkgs : Nat
deriving DecidableEq, Repr

/-- `NewProgressManager` (`progress.go`): empty queue and results,
`started` false, totals from the package list. -/
def newProgressManager (pkgs : List String) : ProgressManager :=
  { packages := pkgs, queue := [], results := [], started := false,
    totalPkgs := pkgs.length, completedPkgs := 0 }

/-- `ProgressManager.Start` (`progress.go` lines with the started flag):
sets `started`; the consuming goroutine is an observer and not
modelled. -/
def ProgressManager.start (pm : ProgressManager) : ProgressManager :=
  { pm with started := true }

/-- `ProgressManager.Close` (`progress.go`): clears `started` and closes
the channel. -/
def ProgressManager.close (pm : ProgressManager) : ProgressManager :=
  { pm with started := false }

/-- `ProgressManager.SendEvent` (`progress.go`): when not started the
event is ignored entirely; when started the event is stamped with the
current time and the non-blocking send either enqueues it or, on a full
channel, drops it with a logged warning.  The returned list is the log
output of the call. -/
def ProgressManager.sendEvent (pm : ProgressManager) (event : ProgressEvent)
    (now : Nat) : ProgressManager × List String :=
  if pm.started then
    let stamped := { event with timestamp := now }
    if pm.queue.length < progressQueueCap then
      ({ pm with queue := pm.queue ++ [stamped] }, [])
    else (pm, ["进度事件通道已满，丢弃事件"])
  else (pm, [])

/-- A winget-style registered manager for which package "a" fails to
install and every other package succeeds; nothing is pre-installed. -/
def wgM : Manager :=
  { mname := "winget", available := true, isInstalled := fun _ => false,
    installErr := fun p => if p == "a" then some "boom" else none,
    priority := 2 }

/-- An installer whose only registered manager is `wgM`. -/
def instW : Installer := ⟨[wgM]⟩

/-- A pacman-style registered manager with the same install outcomes. -/
def pmM : Manager :=
  { mname := "pacman", available := true, isInstalled := fun _ => false,
    installErr := fun p => if p == "a" then some "boom" else none,
    priority := 1 }

/-- An installer whose only registered manager is `pmM`. -/
def instP : Installer := ⟨[pmM]⟩

/-- A context that is never cancelled. -/
def ctxNever : Nat → Bool := fun _ => false

/-- A context that is already cancelled at every check. -/
def ctxCancelled : Nat → Bool := fun _ => true

/-- Options with force off (the fail-fast batch policy). -/
def optsPlain : InstallOptions :=
  { force := false, dryRun := false, verbose := false, quiet := true,
    parallel := true, maxWorkers := 0 }

/-- Options with force on. -/
def optsForce : InstallOptions :=
  { force := true, dryRun := false, verbose := false, quiet := true,
    parallel := true, maxWorkers := 0 }

/-- With `force` on and no cancellation, the sequential loop processes
every package in input order. -/
theorem seqLoop_of_force (inst : Installer) (ctx : Nat → Bool)
    (opts : InstallOptions) (hf : opts.force = true)
    (hctx : ∀ j, ctx j = false) :
    ∀ (pkgs : List String) (i : Nat),
      seqLoop inst ctx opts i pkgs
        = (pkgs.map (fun p => (inst.installPackage p opts).1), none)
  | [], _ => by simp [seqLoop]
  | pkg :: rest, i => by
    have ih := seqLoop_of_force inst ctx opts hf hctx rest (i + 1)
    simp [seqLoop, hctx i, hf, ih]

/-- With `force` off and no cancellation, the sequential loop returns the
results of the input prefix up to and including the first failing
package. -/
theorem seqLoop_no_force (inst : Installer) (ctx : Nat → Bool)
    (opts : InstallOptions) (hf : opts.force = false)
    (hctx : ∀ j, ctx j = false) :
    ∀ (pkgs : List String) (i : Nat),
      seqLoop inst ctx opts i pkgs
        = ((pkgs.take
              (pkgs.findIdx (fun p => ((inst.installPackage p opts).2).isSome) + 1)).map
            (fun p => (inst.installPackage p opts).1), none)
  | [], _ => by simp [seqLoop]
  | pkg :: rest, i => by
    have ih := seqLoop_no_force inst ctx opts hf hctx rest (i + 1)
    by_cases hfail : ((inst.installPackage pkg opts).2).isSome = true
    · simp [seqLoop, hctx i, hf, hfail, List.findIdx_cons]
    · simp only [Bool.not_eq_true] at hfail
      simp [seqLoop, hctx i, hf, hfail, List.findIdx_cons, ih]

/-- Without cancellation the worker pool processes every queued package
in completion order. -/
theorem poolLoop_no_cancel (inst : Installer) (ctx : Nat → Bool)
    (opts : InstallOptions) (hctx : ∀ j, ctx j = false) :
    ∀ (pkgs : List String) (i : Nat),
      poolLoop inst ctx opts i pkgs
        = pkgs.map (fun p => (inst.installPackage p opts).1)
  | [], _ => by simp [poolLoop]
  | pkg :: rest, i => by
    have ih := poolLoop_no_cancel inst ctx opts hctx rest (i + 1)
    simp [poolLoop, hctx i, ih]

/-- The only batch-level error the sequential loop can return is the
cancellation error: package failures are captured in results. -/
theorem seqLoop_err_eq_cancel (inst : Installer) (ctx : Nat → Bool)
    (opts : InstallOptions) :
    ∀ (pkgs : List String) (i : Nat) (e : GoErr),
      (seqLoop inst ctx opts i pkgs).2 = some e → e = cancelMsg
  | [], _, e => by simp [seqLoop]
  | pkg :: rest, i, e => by
    have ih := seqLoop_err_eq_cancel inst ctx opts rest (i + 1) e
    by_cases hc : ctx i = true
    · simp [seqLoop, hc]
      intro h
      exact h.symm
    · simp only [Bool.not_eq_true] at hc
      by_cases hb : ((inst.installPackage pkg opts).2.isSome && !opts.force) = true
      · simp [seqLoop, hc, hb]
    
      · simp only [Bool.not_eq_true] at hb
        simp [seqLoop, hc, hb]
        exact ih

/-- When the sequential loop returns the cancellation error, the result
list is a proper partial list: strictly shorter than the input. -/
theorem seqLoop_cancel_partial (inst : Installer) (ctx : Nat → Bool)
    (opts : InstallOptions) :
    ∀ (pkgs : List String) (i : Nat),
      (seqLoop inst ctx opts i pkgs).2 = some cancelMsg →
      (seqLoop inst ctx opts i pkgs).1.length < pkgs.length
  | [], _ => by simp [seqLoop]
  | pkg :: rest, i => by
    have ih := seqLoop_cancel_partial inst ctx opts rest (i + 1)
    by_cases hc : ctx i = true
    · simp [seqLoop, hc]
    · simp only [Bool.not_eq_true] at hc
      by_cases hb : ((inst.installPackage pkg opts).2.isSome && !opts.force) = true
      · simp [seqLoop, hc, hb]
      · simp only [Bool.not_eq_true] at hb
        simp [seqLoop, hc, hb]
        intro h
        exact ih h

/-- Claim C1 is false as stated: with force off, a package list whose
first package fails makes the Sequential Executor stop early, while the
Parallel Executor's pool still processes the remaining packages, so the
sets of (package, result) pairs differ.  Concretely, on `instW` with
packages ["a", "b"] where "a" fails, the parallel result set contains a
result for "b" and the sequential one does not. -/
theorem parallel_seq_result_sets_differ :
    ({ packageName := "b", manager := "winget", success := true,
       skipped := false, error := none } : InstallResult)
      ∈ (installPackagesParallelGo instW ctxNever ["a", "b"] ["a", "b"]
          optsPlain).results ∧
    ({ packageName := "b", manager := "winget", success := true,
       skipped := false, error := none } : InstallResult)
      ∉ (Installer.installPackages instW ctxNever ["a", "b"] optsPlain).1 := by
  decide

/-- Claim C1 (amended): with force on (so the sequential batch does not
stop early) and no cancellation, the result list of
`InstallPackagesParallel` is a permutation of the Sequential Executor's
result list for any completion order of the pool — the same multiset of
(package, result) pairs, hence the same set. -/
theorem parallel_refines_seq_of_force (inst : Installer) (ctx : Nat → Bool)
    (pkgs order : List String) (opts : InstallOptions)
    (hperm : order.Perm pkgs) (hf : opts.force = true)
    (hctx : ∀ i, ctx i = false) :
    ((installPackagesParallelGo inst ctx order pkgs opts).results).Perm
      ((inst.installPackages ctx pkgs opts).1) := by
  unfold installPackagesParallelGo
  by_cases hs : inst.supportsParallel = true
  · simp only [hs, Bool.not_true, Bool.false_eq_true, if_false]
    rw [Installer.installPackages, seqLoop_of_force inst ctx opts hf hctx,
      poolLoop_no_cancel inst ctx opts hctx]
    exact hperm.map _
  · simp only [Bool.not_eq_true] at hs
    simp [hs]

/-- Witness for the amended claim C1 at a concrete winget installer, two
packages and the reversed completion order. -/
theorem parallel_refines_seq_of_force_witness :
    ((installPackagesParallelGo instW ctxNever ["b", "a"] ["a", "b"]
        optsForce).results).Perm
      ((Installer.installPackages instW ctxNever ["a", "b"] optsForce).1) :=
  parallel_refines_seq_of_force instW ctxNever ["a", "b"] ["b", "a"] optsForce
    (List.Perm.swap "a" "b" []) rfl (fun _ => rfl)

/-- Claim C2: for a non-empty package list without cancellation, the
Sequential Executor returns, with force off, exactly the results of the
input prefix up to and including the first failing package, in input
order; with force on, one result per input package in input order. -/
theorem seq_results_prefix_order (inst : Installer) (ctx : Nat → Bool)
    (pkgs : List String) (opts : InstallOptions)
    (hne : pkgs ≠ []) (hctx : ∀ i, ctx i = false) :
    (opts.force = false →
      (inst.installPackages ctx pkgs opts).1
        = (pkgs.take
            (pkgs.findIdx (fun p => ((inst.installPackage p opts).2).isSome) + 1)).map
            (fun p => (inst.installPackage p opts).1)) ∧
    (opts.force = true →
      (inst.installPackages ctx pkgs opts).1
        = pkgs.map (fun p => (inst.installPackage p opts).1)) := by
  constructor
  · intro hf
    rw [Installer.installPackages, seqLoop_no_force inst ctx opts hf hctx pkgs 0]
  · intro hf
    rw [Installer.installPackages, seqLoop_of_force inst ctx opts hf hctx pkgs 0]

/-- Witness for claim C2 at a concrete installer where the first of two
packages fails and force is off. -/
theorem seq_results_prefix_order_witness :
    (Installer.installPackages instW ctxNever ["a", "b"] optsPlain).1
      = ((["a", "b"].take
          (["a", "b"].findIdx
            (fun p => ((Installer.installPackage instW p optsPlain).2).isSome) + 1)).map
          (fun p => (Installer.installPackage instW p optsPlain).1)) :=
  (seq_results_prefix_order instW ctxNever ["a", "b"] optsPlain (by decide)
    (fun _ => rfl)).1 rfl

/-- Claim C4 is false as stated: on an installer whose selected provider
is pacman the capability check reports unsupported, yet
`InstallPackagesParallel` itself executes the packages through the
Sequential Executor (the `seqFallback` branch), returning exactly the
sequential result list — including its early exit after the failing
first package. -/
theorem parallel_internal_fallback_counterexample :
    (checkParallelCapability 4 instP ["a", "b"]).supported = false ∧
    (installPackagesParallelGo instP ctxNever ["a", "b"] ["a", "b"]
        optsPlain).path = ExecPath.seqFallback ∧
    (installPackagesParallelGo instP ctxNever ["a", "b"] ["a", "b"]
        optsPlain).results
      = (Installer.installPackages instP ctxNever ["a", "b"] optsPlain).1 := by
  decide

/-- Claim C4 (amended): whenever the selected provider does not support
parallel installs, `InstallPackagesParallel` itself falls back to the
Sequential Executor and returns its results and error; the worker pool
runs exactly when the provider supports parallel installs (so a
capability check failing only on package count does not trigger the
internal fallback).  The caller-side fallback in `runInstall` is
additional, not the only one. -/
theorem parallel_fallback_behaviour (inst : Installer) (ctx : Nat → Bool)
    (order pkgs : List String) (opts : InstallOptions) :
    (inst.supportsParallel = false →
      installPackagesParallelGo inst ctx order pkgs opts
        = { results := (inst.installPackages ctx pkgs opts).1,
            err := (inst.installPackages ctx pkgs opts).2,
            path := ExecPath.seqFallback }) ∧
    (inst.supportsParallel = true →
      (installPackagesParallelGo inst ctx order pkgs opts).path
        = ExecPath.pool) := by
  constructor <;> intro h <;> simp [installPackagesParallelGo, h]

/-- Witness for the amended claim C4 at the concrete pacman installer. -/
theorem parallel_fallback_behaviour_witness :
    installPackagesParallelGo instP ctxNever ["a", "b"] ["a", "b"] optsPlain
      = { results := (Installer.installPackages instP ctxNever ["a", "b"]
            optsPlain).1,
          err := (Installer.installPackages instP ctxNever ["a", "b"]
            optsPlain).2,
          path := ExecPath.seqFallback } :=
  (parallel_fallback_behaviour instP ctxNever ["a", "b"] ["a", "b"]
    optsPlain).1 (by decide)

/-- Claim C5 is false as stated: with a cancelled context the Sequential
Executor does return the partial results with the cancellation error, but
the Parallel Executor's pool discards the pool error from `Wait()` and
returns a nil batch-level error. -/
theorem parallel_swallows_cancellation :
    (installPackagesParallelGo instW ctxCancelled ["a", "b"] ["a", "b"]
        optsPlain).err = none ∧
    Installer.installPackages instW ctxCancelled ["a", "b"] optsPlain
      = ([], some cancelMsg) := by
  decide

/-- Claim C5 (amended): the Sequential Executor's only possible
batch-level error is the cancellation error (individual package failures
are captured in results, never returned), and when that error is
returned the result list is a strict partial list of the input; the
Parallel Executor's pool path always returns a nil batch-level error,
logging and discarding even the cancellation error. -/
theorem batch_error_policy (inst : Installer) (ctx : Nat → Bool)
    (pkgs order : List String) (opts : InstallOptions) :
    (∀ e, (inst.installPackages ctx pkgs opts).2 = some e → e = cancelMsg) ∧
    ((inst.installPackages ctx pkgs opts).2 = some cancelMsg →
      (inst.installPackages ctx pkgs opts).1.length < pkgs.length) ∧
    (inst.supportsParallel = true →
      (installPackagesParallelGo inst ctx order pkgs opts).err = none) := by
    refine ⟨?_, ?_, ?_⟩
    · intro e h
      exact seqLoop_err_eq_cancel inst ctx opts pkgs 0 e h
    · intro h
      exact seqLoop_cancel_partial inst ctx opts pkgs 0 h
    · intro h
      simp [installPackagesParallelGo, h]

/-- Witness for the amended claim C5: a cancelled sequential batch over
one package returns a strictly shorter (empty) result list. -/
theorem batch_error_policy_witness :
    (Installer.installPackages instW ctxCancelled ["a"] optsPlain).1.length
      < (["a"] : List String).length :=
  (batch_error_policy instW ctxCancelled ["a"] ["a"] optsPlain).2.1 (by decide)

/-- Claim C6 is false as stated: with max-workers 0 (auto) the pool size
is `runtime.NumCPU()` (here 8), not `OptimalWorkerCount(packageCount)`
(which is 1 for 2 packages). -/
theorem worker_sizing_counterexample :
    newParallelInstallerWorkers 8 0 = 8 ∧
    getOptimalWorkerCount 8 2 = 1 ∧
    newParallelInstallerWorkers 8 0 ≠ ((getOptimalWorkerCount 8 2 : Nat) : Int) := by
  decide

/-- Claim C6 (amended): the pool size is exactly the configured
max-workers when positive (no cap is applied) and `runtime.NumCPU()`
otherwise, independent of the package count; `GetOptimalWorkerCount`
feeds only the capability check's recommendation. -/
theorem worker_sizing (cpu mw : Int) (cpuN : Nat) (inst : Installer)
    (pkgs : List String) :
    (0 < mw → newParallelInstallerWorkers cpu mw = mw) ∧
    (mw ≤ 0 → newParallelInstallerWorkers cpu mw = cpu) ∧
    ((checkParallelCapability cpuN inst pkgs).supported = true →
      (checkParallelCapability cpuN inst pkgs).recommendedWorkers
        = getOptimalWorkerCount cpuN pkgs.length) := by
  refine ⟨?_, ?_, ?_⟩
  · intro h
    rw [newParallelInstallerWorkers, if_neg (by omega)]
  · intro h
    rw [newParallelInstallerWorkers, if_pos h]
  · intro h
    unfold checkParallelCapability at h ⊢
    split_ifs at h ⊢ <;> simp_all

/-- Witness for the amended claim C6: a configured positive max-workers
is used exactly. -/
theorem worker_sizing_witness :
    newParallelInstallerWorkers 8 4 = 4 :=
  (worker_sizing 8 4 4 instW ["a", "b"]).1 (by decide)

/-- Claim C9: `GetOptimalWorkerCount` returns 1 for at most two packages,
the package count when it does not exceed the CPU count (and exceeds 2),
and `floor(1.5 * cpu)` — which is at most `ceil(1.5 * cpu)` — when the
package count exceeds the CPU count; `runtime.NumCPU()` is at least 1. -/
theorem optimal_worker_count_spec (cpu n : Nat) (hcpu : 1 ≤ cpu) :
    (n ≤ 2 → getOptimalWorkerCount cpu n = 1) ∧
    (2 < n → n ≤ cpu → getOptimalWorkerCount cpu n = n) ∧
    (cpu < n → getOptimalWorkerCount cpu n = 3 * cpu / 2 ∧
      getOptimalWorkerCount cpu n ≤ (3 * cpu + 1) / 2) := by
  refine ⟨?_, ?_, ?_⟩ <;> intros <;> unfold getOptimalWorkerCount <;>
    split_ifs <;> omega

/-- Witness for claim C9: ten packages on four CPUs get
`floor(1.5 * 4) = 6` workers, within `ceil(1.5 * 4)`. -/
theorem optimal_worker_count_spec_witness :
    getOptimalWorkerCount 4 10 = 3 * 4 / 2 ∧
    getOptimalWorkerCount 4 10 ≤ (3 * 4 + 1) / 2 :=
  (optimal_worker_count_spec 4 10 (by decide)).2.2 (by decide)

/-- Claim C10: when the progress reporter has not been started (or has
been closed), `SendEvent` discards the event entirely — the reporter
state is unchanged, nothing is enqueued, and no warning is logged (the
log output of the call is empty). -/
theorem sendEvent_not_started (pm : ProgressManager) (event : ProgressEvent)
    (now : Nat) (h : pm.started = false) :
    pm.sendEvent event now = (pm, []) := by
  simp [ProgressManager.sendEvent, h]

/-- A progress event used by the claim C10 witness. -/
def ev0 : ProgressEvent :=
  { type := ProgressEventType.start, packageName := "a", manager := "winget",
    message := "开始安装", error := none, timestamp := 0 }

/-- Witness for claim C10: sending to a freshly created (never started)
reporter changes nothing and logs nothing. -/
theorem sendEvent_not_started_witness :
    (newProgressManager ["a", "b"]).sendEvent ev0 7
      = (newProgressManager ["a", "b"], []) :=
  sendEvent_not_started (newProgressManager ["a", "b"]) ev0 7 rfl

/-- A Linux world where only pacman is on the PATH (so pacman is the
selected provider), "vim" is already installed, no lock is held and all
install commands would succeed. -/
def w3 : World :=
  { goos := "linux", pacmanOnPath := true, yayOnPath := false,
    wingetOnPath := false, isArch := false,
    pacmanDB := fun q => q == "vim", wingetDB := fun _ => false,
    pacmanCmdOk := fun _ => true, yayCmdOk := fun _ => true,
    wingetOutcome := fun _ => WingetOutcome.errFail,
    pacmanLock := false, sudoNOk := true }

/-- Claim C3 is false as stated: with force on and dry-run off, for a
package its selected pacman provider reports installed, the orchestrator
does enter the provider's `Install`, but the provider skips internally:
the mutating install command never executes and the world is unchanged —
no reinstallation happens. -/
theorem force_does_not_reinstall_counterexample :
    optsForce.force = true ∧ optsForce.dryRun = false ∧
    selectManagerA w3 = some MgrId.pacman ∧
    mgrIsInstalled w3 MgrId.pacman "vim" = true ∧
    (installPackageA w3 "vim" optsForce).trace
      = [Ev.enterInstall MgrId.pacman "vim"] ∧
    (installPackageA w3 "vim" optsForce).world = w3 ∧
    (installPackageA w3 "vim" optsForce).result.success = true :=
  ⟨rfl, rfl, rfl, rfl, rfl, rfl, rfl⟩

/-- If pacman or yay already reports a package installed, the provider's
`Install` executes no install command. -/
theorem mgrInstall_no_cmd_of_installed (w : World) (pkg : String) :
    (w.pacmanDB pkg = true → (mgrInstall w MgrId.pacman pkg).trace = []) ∧
    (w.pacmanDB pkg = true → (mgrInstall w MgrId.yay pkg).trace = []) := by
  constructor <;> intro h
  · simp [mgrInstall, pacmanInstallM, h]
  · unfold mgrInstall yayInstallM
    split_ifs <;> simp_all

/-- Claim C3 (amended): with force on and dry-run off the orchestrator
always enters the selected provider's `Install` (the orchestrator-level
skip is bypassed), but the pacman and yay providers internally skip a
package they report installed, so the mutating install command is never
executed for it — force does not guarantee reinstallation. -/
theorem force_enters_install_but_providers_skip (w : World) (pkg : String)
    (opts : InstallOptions) (m : MgrId) (hs : selectManagerA w = some m)
    (hf : opts.force = true) (hd : opts.dryRun = false) :
    ((installPackageA w pkg opts).trace).head?
      = some (Ev.enterInstall m pkg) ∧
    ((m = MgrId.pacman ∨ m = MgrId.yay) → mgrIsInstalled w m pkg = true →
      Ev.execInstallCmd m pkg ∉ (installPackageA w pkg opts).trace) := by
  constructor
  · unfold installPackageA
    rw [hs]
    simp only [hf, hd, Bool.not_true, Bool.false_and, Bool.false_eq_true,
      if_false]
    cases herr : (mgrInstall w m pkg).err <;> simp [herr]
  · intro hm hi
    have htr : (mgrInstall w m pkg).trace = [] := by
      rcases hm with hp | hy
      · subst hp
        exact (mgrInstall_no_cmd_of_installed w pkg).1 hi
      · subst hy
        exact (mgrInstall_no_cmd_of_installed w pkg).2 hi
    unfold installPackageA
    rw [hs]
    simp only [hf, hd, Bool.not_true, Bool.false_and, Bool.false_eq_true,
      if_false]
    cases herr : (mgrInstall w m pkg).err <;> simp [herr, htr]

/-- Witness for the amended claim C3: for the installed package "vim" on
`w3`, no pacman install command appears in the trace despite force. -/
theorem force_enters_install_but_providers_skip_witness :
    Ev.execInstallCmd MgrId.pacman "vim"
      ∉ (installPackageA w3 "vim" optsForce).trace :=
  (force_enters_install_but_providers_skip w3 "vim" optsForce MgrId.pacman
    rfl rfl rfl).2 (Or.inl rfl) rfl

/-- Claim C7: when the selected provider reports a package installed and
force is off, the single-package install returns success with the skipped
flag set, the provider's `Install` is never entered (empty trace) and the
world is unchanged. -/
theorem skip_when_installed (w : World) (pkg : String)
    (opts : InstallOptions) (m : MgrId) (hs : selectManagerA w = some m)
    (hi : mgrIsInstalled w m pkg = true) (hf : opts.force = false) :
    (installPackageA w pkg opts).result.success = true ∧
    (installPackageA w pkg opts).result.skipped = true ∧
    (installPackageA w pkg opts).trace = [] ∧
    (installPackageA w pkg opts).world = w := by
  unfold installPackageA
  rw [hs]
  simp [hf, hi]

/-- Witness for claim C7 at the concrete world `w3` and its installed
package "vim". -/
theorem skip_when_installed_witness :
    (installPackageA w3 "vim" optsPlain).result.success = true ∧
    (installPackageA w3 "vim" optsPlain).result.skipped = true ∧
    (installPackageA w3 "vim" optsPlain).trace = [] ∧
    (installPackageA w3 "vim" optsPlain).world = w3 :=
  skip_when_installed w3 "vim" optsPlain MgrId.pacman rfl rfl rfl

/-- Dry-run options. -/
def optsDry : InstallOptions :=
  { force := false, dryRun := true, verbose := false, quiet := true,
    parallel := false, maxWorkers := 0 }

/-- Claim C8: with dry-run on (and some provider selected), the
single-package install returns success, never enters the provider's
`Install` (empty trace), leaves the world unchanged, and in particular
the provider's `IsInstalled` answer for the package is the same before
and after the call. -/
theorem dry_run_no_mutation (w : World) (pkg : String)
    (opts : InstallOptions) (m : MgrId) (hs : selectManagerA w = some m)
    (hd : opts.dryRun = true) :
    (installPackageA w pkg opts).result.success = true ∧
    (installPackageA w pkg opts).trace = [] ∧
    (installPackageA w pkg opts).world = w ∧
    mgrIsInstalled ((installPackageA w pkg opts).world) m pkg
      = mgrIsInstalled w m pkg := by
  unfold installPackageA
  rw [hs]
  by_cases hskip : (!opts.force && mgrIsInstalled w m pkg) = true
  · simp [hskip]
  · simp [hskip, hd]

/-- Witness for claim C8: a dry run for a not-yet-installed package on
`w3` succeeds without mutation. -/
theorem dry_run_no_mutation_witness :
    (installPackageA w3 "fzf" optsDry).result.success = true ∧
    (installPackageA w3 "fzf" optsDry).trace = [] ∧
    (installPackageA w3 "fzf" optsDry).world = w3 ∧
    mgrIsInstalled ((installPackageA w3 "fzf" optsDry).world) MgrId.pacman "fzf"
      = mgrIsInstalled w3 MgrId.pacman "fzf" :=
  dry_run_no_mutation w3 "fzf" optsDry MgrId.pacman rfl rfl
